import Mathlib

/-!
# Verification of the ai-news pipeline core

A shallow embedding, in Lean 4, of the orchestration and section-extraction
logic of the ai-news repository:

* `scripts/extract_regex.py` — the regex section extractor
  (`extract_sections`), the merge/persist step
  (`update_database_with_sections`) and the batch driver (`main`);
* `scripts/workflow.py` — `WorkflowManager.run_full_workflow`;
* `scripts/testing/run.py` — `run_pipeline`;
* `scripts/parse_parallel.py` — `convert_pdf` / `convert_pdfs_parallel`.

Python regular expressions are embedded by a small backtracking matcher.
Every pattern in the source has the shape `PRE (.*?) (?=B1|…|Bk|\Z)` — a
prefix regex, a single lazy dot-all capture group and a final lookahead —
and all repetition in `PRE` and the `Bi` is over single-character classes,
so leftmost search, the preferred match end of `PRE`, and the lazy capture
(text up to the first position where some `Bi` matches, or end of input)
are modelled directly.  All searches in the source are compiled with
`re.DOTALL | re.IGNORECASE`; `re.IGNORECASE` is reflected by
case-insensitive literals and by character classes `[A-Z]`/`[a-z]`
matching both cases.  `\s` and `\d` are modelled at ASCII width, which
covers every character the embedded patterns and theorems touch.
-/

namespace AiNews

/-- ASCII lower-casing, the effect of `re.IGNORECASE` on a single letter. -/
def lowerC (c : Char) : Char :=
  if 'A' ≤ c && c ≤ 'Z' then Char.ofNat (c.toNat + 32) else c

/-- Python `\s` at ASCII width: space, tab, newline, carriage return,
vertical tab, form feed. -/
def isWs (c : Char) : Bool :=
  c == ' ' || c == '\t' || c == '\n' || c == '\r' || c == '\x0b' || c == '\x0c'

/-- Python `\d` at ASCII width. -/
def isDigit (c : Char) : Bool := '0' ≤ c && c ≤ '9'

/-- The class `[A-Z]` under `re.IGNORECASE`: any ASCII letter. -/
def classUpperCI (c : Char) : Bool :=
  ('A' ≤ c && c ≤ 'Z') || ('a' ≤ c && c ≤ 'z')

/-- The class `[a-z]` under `re.IGNORECASE`: any ASCII letter. -/
def classLowerCI (c : Char) : Bool :=
  ('A' ≤ c && c ≤ 'Z') || ('a' ≤ c && c ≤ 'z')

/-- The class `[-–—]` (hyphen, en dash, em dash). -/
def isDash (c : Char) : Bool := c == '-' || c == '–' || c == '—'

/-- The class `[:\.]`. -/
def isColonDot (c : Char) : Bool := c == ':' || c == '.'

/-- The literal `\n`. -/
def isNl (c : Char) : Bool := c == '\n'

/-- The class `[s]` / `[S]` under `re.IGNORECASE`. -/
def isS (c : Char) : Bool := c == 's' || c == 'S'

/-- The literal `.` as a single-character class. -/
def isDot (c : Char) : Bool := c == '.'

/-- Regular expressions, restricted to the shapes occurring in
`extract_regex.py`: literals, single-character classes, sequencing,
alternation, greedy `?` and greedy `*`/`+` over character classes. -/
inductive RE where
  | eps : RE
  | ch (p : Char → Bool) : RE
  | lit (l : List Char) : RE
  | litcs (l : List Char) : RE
  | seq (a b : RE) : RE
  | alt (a b : RE) : RE
  | opt (a : RE) : RE
  | star (p : Char → Bool) : RE
  | plus (p : Char → Bool) : RE

/-- Strip a case-insensitive literal (`re.IGNORECASE` behaviour) off the
front of the input, returning the remainder. -/
def stripLitCI : List Char → List Char → Option (List Char)
  | [], s => some s
  | _ :: _, [] => none
  | l :: ls, c :: cs => if lowerC l == lowerC c then stripLitCI ls cs else none

/-- Strip a case-sensitive literal off the front of the input (used for
`re.split`, which the source calls without flags). -/
def stripLitCS : List Char → List Char → Option (List Char)
  | [], s => some s
  | _ :: _, [] => none
  | l :: ls, c :: cs => if l == c then stripLitCS ls cs else none

/-- Greedy backtracking for a character-class star: prefer consuming the
current character, fall back to stopping.  First success in this order is
the match Python's engine commits to. -/
def matchStar (p : Char → Bool) : List Char → (List Char → Option (List Char)) →
    Option (List Char)
  | [], k => k []
  | c :: t, k =>
    if p c then
      match matchStar p t k with
      | some r => some r
      | none => k (c :: t)
    else k (c :: t)

/-- Backtracking matcher in continuation-passing style.  `matchRE r s k`
explores the parses of `r` against a prefix of `s` in Python's preference
order (alternation left first, `?` and class-`*`/`+` greedy) and returns
the first continuation success. -/
def matchRE : RE → List Char → (List Char → Option (List Char)) → Option (List Char)
  | .eps, s, k => k s
  | .ch p, s, k =>
    match s with
    | [] => none
    | c :: t => if p c then k t else none
  | .lit l, s, k =>
    match stripLitCI l s with
    | some t => k t
    | none => none
  | .litcs l, s, k =>
    match stripLitCS l s with
    | some t => k t
    | none => none
  | .seq a b, s, k => matchRE a s (fun t => matchRE b t k)
  | .alt a b, s, k =>
    match matchRE a s k with
    | some r => some r
    | none => matchRE b s k
  | .opt a, s, k =>
    match matchRE a s k with
    | some r => some r
    | none => k s
  | .star p, s, k => matchStar p s k
  | .plus p, s, k =>
    match s with
    | [] => none
    | c :: t => if p c then matchStar p t k else none

/-- `re.search` scanning: leftmost start position at which `pre` matches,
returning the input remainder after the preferred match of `pre` (the
start of the lazy capture group). -/
def searchFrom (pre : RE) (s : List Char) : Option (List Char) :=
  match matchRE pre s some with
  | some t => some t
  | none =>
    match s with
    | [] => none
    | _ :: t => searchFrom pre t

/-- Does `b` match at the start of `s` (a lookahead test)? -/
def matchesAt (b : RE) (s : List Char) : Bool :=
  (matchRE b s some).isSome

/-- The lazy capture `(.*?)(?=b|\Z)` starting at `s`: text up to the first
position where `b` matches, or all of `s` if `b` matches nowhere. -/
def captureTo (b : RE) : List Char → List Char
  | [] => []
  | c :: t => if matchesAt b (c :: t) then [] else c :: captureTo b t

/-- `re.search(pre ++ "(.*?)(?=" ++ bound ++ "|\Z)", content, DOTALL |
IGNORECASE)`, returning `match.group(1)`. -/
def patCapture (pre bound : RE) (content : List Char) : Option (List Char) :=
  (searchFrom pre content).map (fun rest => captureTo bound rest)

/-- Python `str.strip()`: drop leading and trailing whitespace. -/
def stripWs (s : List Char) : List Char :=
  ((s.dropWhile isWs).reverse.dropWhile isWs).reverse

/-- Helper for `collapseWs`; the flag records whether the previous input
character was whitespace (so the run's single space is already emitted). -/
def collapseAux : Bool → List Char → List Char
  | _, [] => []
  | inWs, c :: t =>
    if isWs c then
      if inWs then collapseAux true t else ' ' :: collapseAux true t
    else c :: collapseAux false t

/-- Python `re.sub(r'\s+', ' ', s)`: every maximal whitespace run becomes a
single space. -/
def collapseWs (s : List Char) : List Char := collapseAux false s

/-- `match.group(1).strip()` followed by `re.sub(r'\s+', ' ', …)`, the
normalization the source applies to every candidate capture. -/
def normText (s : List Char) : List Char := collapseWs (stripWs s)

/-- The split pattern `r'\n\s*References?|\n\s*REFERENCES?'` of
`re.split` in the source — called without `re.IGNORECASE`, hence the
case-sensitive literals. -/
def splitRefPat : RE :=
  .alt
    (.seq (.ch isNl) (.seq (.star isWs)
      (.seq (.litcs ['R', 'e', 'f', 'e', 'r', 'e', 'n', 'c', 'e'])
        (.opt (.ch (fun c => c == 's'))))))
    (.seq (.ch isNl) (.seq (.star isWs)
      (.seq (.litcs ['R', 'E', 'F', 'E', 'R', 'E', 'N', 'C', 'E'])
        (.opt (.ch (fun c => c == 'S'))))))

/-- `re.split(r'\n\s*References?|\n\s*REFERENCES?', s)[0]`: the prefix of
`s` before the leftmost match of the split pattern (all of `s` if it
matches nowhere). -/
def splitFirst : List Char → List Char
  | [] => []
  | c :: t => if matchesAt splitRefPat (c :: t) then [] else c :: splitFirst t

/-- Case-insensitive literal built from a string. -/
def lit (s : String) : RE := .lit s.data

/-- `\s*`. -/
def wsStar : RE := .star isWs

/-- The optional numeric heading `(?:\d+\.?\s*)?`. -/
def numHead : RE := .opt (.seq (.plus isDigit) (.seq (.opt (.ch isDot)) wsStar))

/-- `\d+\.?\s*[A-Z]`, the numbered-heading boundary. -/
def numUpper : RE :=
  .seq (.plus isDigit) (.seq (.opt (.ch isDot)) (.seq wsStar (.ch classUpperCI)))

/-- `\n\s*r`. -/
def nlWs (r : RE) : RE := .seq (.ch isNl) (.seq wsStar r)

/-- The prefix of the first abstract pattern, `Abstract\s*\n`. -/
def absPre1 : RE := .seq (lit "Abstract") (.seq wsStar (.ch isNl))

/-- The boundary of the first abstract pattern,
`\n\s*\d|\n\s*[A-Z][a-z]`. -/
def absBound1 : RE :=
  .alt (nlWs (.ch isDigit)) (nlWs (.seq (.ch classUpperCI) (.ch classLowerCI)))

/-- The `abstract_patterns` list of `extract_sections`, each pattern split
into its prefix (before the capture group) and its lookahead boundary
(the `\Z` alternative is realized by `captureTo` reaching end of input). -/
def abstract_patterns : List (RE × RE) :=
  [ -- r'Abstract\s*\n(.*?)(?=\n\s*\d|\n\s*[A-Z][a-z]|\Z)'
    (absPre1, absBound1),
    -- r'ABSTRACT\s*\n(.*?)(?=\n\s*\d|\n\s*[A-Z][a-z]|\Z)'
    (.seq (lit "ABSTRACT") (.seq wsStar (.ch isNl)),
      .alt (nlWs (.ch isDigit)) (nlWs (.seq (.ch classUpperCI) (.ch classLowerCI)))),
    -- r'Abstract\s*[-–—]\s*(.*?)(?=\n\s*\d|\n\s*[A-Z][a-z]|\Z)'
    (.seq (lit "Abstract") (.seq wsStar (.seq (.ch isDash) wsStar)),
      .alt (nlWs (.ch isDigit)) (nlWs (.seq (.ch classUpperCI) (.ch classLowerCI)))),
    -- r'ABSTRACT\s*[-–—]\s*(.*?)(?=\n\s*\d|\n\s*[A-Z][a-z]|\Z)'
    (.seq (lit "ABSTRACT") (.seq wsStar (.seq (.ch isDash) wsStar)),
      .alt (nlWs (.ch isDigit)) (nlWs (.seq (.ch classUpperCI) (.ch classLowerCI)))),
    -- r'Abstract[:\.]?\s*(.*?)(?=\n\s*(?:\d+\.?\s*[A-Z]|Introduction|INTRODUCTION)|\Z)'
    (.seq (lit "Abstract") (.seq (.opt (.ch isColonDot)) wsStar),
      nlWs (.alt numUpper (.alt (lit "Introduction") (lit "INTRODUCTION")))),
    -- r'ABSTRACT[:\.]?\s*(.*?)(?=\n\s*(?:\d+\.?\s*[A-Z]|Introduction|INTRODUCTION)|\Z)'
    (.seq (lit "ABSTRACT") (.seq (.opt (.ch isColonDot)) wsStar),
      nlWs (.alt numUpper (.alt (lit "Introduction") (lit "INTRODUCTION")))) ]

/-- The boundary `\n\s*(?:Acknowledgement|ACKNOWLEDGEMENT|Reference|REFERENCE|\d+\.?\s*[A-Z])`. -/
def conclBound1 : RE :=
  nlWs (.alt (lit "Acknowledgement") (.alt (lit "ACKNOWLEDGEMENT")
    (.alt (lit "Reference") (.alt (lit "REFERENCE") numUpper))))

/-- The boundary `\n\s*(?:Acknowledgement|Reference|\d+\.?\s*[A-Z])`. -/
def conclBound2 : RE :=
  nlWs (.alt (lit "Acknowledgement") (.alt (lit "Reference") numUpper))

/-- The `conclusion_patterns` list of `extract_sections`. -/
def conclusion_patterns : List (RE × RE) :=
  [ -- r'(?:\d+\.?\s*)?Conclusion[s]?\s*\n(.*?)(?=…Bound1…|\Z)'
    (.seq numHead (.seq (lit "Conclusion") (.seq (.opt (.ch isS)) (.seq wsStar (.ch isNl)))),
      conclBound1),
    -- r'(?:\d+\.?\s*)?CONCLUSION[S]?\s*\n(.*?)(?=…Bound1…|\Z)'
    (.seq numHead (.seq (lit "CONCLUSION") (.seq (.opt (.ch isS)) (.seq wsStar (.ch isNl)))),
      conclBound1),
    -- r'Conclusion and Limitations\s*\n(.*?)(?=…Bound1…|\Z)'
    (.seq (lit "Conclusion and Limitations") (.seq wsStar (.ch isNl)), conclBound1),
    -- r'(?:\d+\.?\s*)?Conclusion[s]?[:\.]?\s*(.*?)(?=…Bound2…|\Z)'
    (.seq numHead (.seq (lit "Conclusion") (.seq (.opt (.ch isS)) (.seq (.opt (.ch isColonDot)) wsStar))),
      conclBound2),
    -- r'(?:\d+\.?\s*)?CONCLUSION[S]?[:\.]?\s*(.*?)(?=…Bound2…|\Z)'
    (.seq numHead (.seq (lit "CONCLUSION") (.seq (.opt (.ch isS)) (.seq (.opt (.ch isColonDot)) wsStar))),
      conclBound2),
    -- r'Concluding Remarks\s*\n(.*?)(?=…Bound2…|\Z)'
    (.seq (lit "Concluding Remarks") (.seq wsStar (.ch isNl)), conclBound2) ]

/-- The boundary
`\n\s*(?:Conclusion|CONCLUSION|Acknowledgement|ACKNOWLEDGEMENT|Reference|REFERENCE|\d+\.?\s*[A-Z])`. -/
def discBound1 : RE :=
  nlWs (.alt (lit "Conclusion") (.alt (lit "CONCLUSION")
    (.alt (lit "Acknowledgement") (.alt (lit "ACKNOWLEDGEMENT")
      (.alt (lit "Reference") (.alt (lit "REFERENCE") numUpper))))))

/-- The boundary `\n\s*(?:Conclusion|Acknowledgement|Reference|\d+\.?\s*[A-Z])`. -/
def discBound2 : RE :=
  nlWs (.alt (lit "Conclusion") (.alt (lit "Acknowledgement") (.alt (lit "Reference") numUpper)))

/-- The `discussion_patterns` list of `extract_sections`. -/
def discussion_patterns : List (RE × RE) :=
  [ -- r'(?:\d+\.?\s*)?Discussion\s*\n(.*?)(?=…discBound1…|\Z)'
    (.seq numHead (.seq (lit "Discussion") (.seq wsStar (.ch isNl))), discBound1),
    -- r'(?:\d+\.?\s*)?DISCUSSION\s*\n(.*?)(?=…discBound1…|\Z)'
    (.seq numHead (.seq (lit "DISCUSSION") (.seq wsStar (.ch isNl))), discBound1),
    -- r'Discussion and Future Work\s*\n(.*?)(?=…discBound1…|\Z)'
    (.seq (lit "Discussion and Future Work") (.seq wsStar (.ch isNl)), discBound1),
    -- r'(?:\d+\.?\s*)?Discussion[:\.]?\s*(.*?)(?=…discBound2…|\Z)'
    (.seq numHead (.seq (lit "Discussion") (.seq (.opt (.ch isColonDot)) wsStar)), discBound2),
    -- r'Discussion and Analysis\s*\n(.*?)(?=…discBound2…|\Z)'
    (.seq (lit "Discussion and Analysis") (.seq wsStar (.ch isNl)), discBound2) ]

/-- The result dictionary of `extract_sections`:
`{'abstract': …, 'conclusion': …}`. -/
structure SectionsOut where
  abstract : Option (List Char)
  conclusion : Option (List Char)
deriving DecidableEq

/-- One pattern cascade of `extract_sections`: try each `(prefix, boundary)`
pattern in order; on a match, strip and whitespace-normalize the capture,
apply `post` (the identity for the abstract cascade, the References split
for the conclusion and discussion cascades — exactly the source's order of
operations), and accept the first result longer than 50 characters.  A
pattern that matches but fails the length gate does not stop the cascade
(the `break` in the source is inside the length check). -/
def tryCascade (post : List Char → List Char) (content : List Char) :
    List (RE × RE) → Option (List Char)
  | [] => none
  | (pre, bound) :: rest =>
    match patCapture pre bound content with
    | some cap =>
      let t := post (normText cap)
      if 50 < t.length then some t else tryCascade post content rest
    | none => tryCascade post content rest

/-- The conclusion-or-discussion part of `extract_sections`: the
conclusion cascade, falling back to the discussion cascade only when the
conclusion cascade produced nothing (the source's `conclusion_found`
control flow). -/
def conclusionOf (content : List Char) : Option (List Char) :=
  match tryCascade splitFirst content conclusion_patterns with
  | some c => some c
  | none => tryCascade splitFirst content discussion_patterns

/-- `extract_sections` of `scripts/extract_regex.py`, from the point where
the reconstructed text `content` is in hand: empty/whitespace-only content
yields the null result; otherwise the abstract cascade fills `abstract`
and `conclusionOf` fills `conclusion`. -/
def extract_sections (content : List Char) : SectionsOut :=
  if (stripWs content).isEmpty then ⟨none, none⟩
  else
    { abstract := tryCascade (fun t => t) content abstract_patterns
      conclusion := conclusionOf content }

/-- Which branch produced the conclusion value.  The source records this
observably through its two distinct log lines, "Found conclusion" versus
"Found discussion as conclusion" (its `conclusion_found` flag). -/
inductive ConclusionSource where
  | conclusion : ConclusionSource
  | discussion : ConclusionSource
deriving DecidableEq

/-- Provenance of the conclusion value of `extract_sections`, mirroring the
source's `conclusion_found` flag and its two distinct success log lines:
`some .conclusion` when the conclusion cascade accepted a capture,
`some .discussion` when only the discussion fallback did, `none` when the
result carries no conclusion. -/
def conclusionSourceOf (content : List Char) : Option ConclusionSource :=
  if (stripWs content).isEmpty then none
  else
    match tryCascade splitFirst content conclusion_patterns with
    | some _ => some ConclusionSource.conclusion
    | none =>
      match tryCascade splitFirst content discussion_patterns with
      | some _ => some ConclusionSource.discussion
      | none => none

/-! ## `update_database_with_sections` — the merge/persist step

The `full_documents` table is modelled as a partial map from document id
to its `(abstract, conclusion)` columns; the other columns play no role in
the persist step. -/

/-- One row of `full_documents`, restricted to the columns the persist
step reads and writes. -/
structure DocRow where
  abstract : Option (List Char)
  conclusion : Option (List Char)
deriving DecidableEq

/-- The `full_documents` table, keyed by document id. -/
def DB : Type := String → Option DocRow

/-- `update_database_with_sections(id, sections)` of
`scripts/extract_regex.py`, returning the table after the call together
with the function's boolean result.  If the row exists and at least one
field of `sections` is non-null, a dynamic UPDATE sets exactly the
non-null fields; the subsequent verification re-read compares the written
fields with what was sent.  If both fields are null, or the row does not
exist, nothing is written and the function returns `False`. -/
def update_database_with_sections (db : DB) (id : String) (sections : SectionsOut) :
    DB × Bool :=
  match db id with
  | some row =>
    let ua := sections.abstract.isSome
    let uc := sections.conclusion.isSome
    if ua || uc then
      let newRow : DocRow :=
        { abstract := if ua then sections.abstract else row.abstract
          conclusion := if uc then sections.conclusion else row.conclusion }
      let db2 : DB := fun j => if j = id then some newRow else db j
      -- the verification re-read of the source
      let updated := db2 id
      let ok := ((!ua || decide ((updated.map DocRow.abstract).join = sections.abstract)) &&
                 (!uc || decide ((updated.map DocRow.conclusion).join = sections.conclusion)))
      (db2, ok)
    else (db, false)
  | none => (db, false)

/-! ## `main` — the batch extraction driver

The driver's environment collects the external state `main` consults: the
id list read from `full_documents`, the loaded `sections_regex.json`
cache, which conversion JSON files exist, the extraction result each such
file yields (the value `extract_sections` computes from it), and the
table itself.  The run state mirrors the driver's locals, plus two
instrumentation fields: the ids on which `extract_sections` was invoked
and the ids inserted into the cache this run — both directly observable
in the source as its `Processing:`/`sections =` call site and its
`extracted_sections[id] = sections` insert. -/

structure MainEnv where
  /-- `SELECT id FROM full_documents`, in fetch order. -/
  documents : List String
  /-- the cache loaded from `sections_regex.json` (`existing_sections`). -/
  existing_sections : String → Option SectionsOut
  /-- whether `CONV_DIR/{id}.json` exists. -/
  jsonExists : String → Bool
  /-- the result `extract_sections` computes from `CONV_DIR/{id}.json`. -/
  extractResult : String → SectionsOut
  /-- the `full_documents` table at the start of the run. -/
  db : DB

structure MainState where
  /-- the `extracted_sections` dict (starts as a copy of the loaded cache,
  persisted to `sections_regex.json` at the end of the run). -/
  extracted : String → Option SectionsOut
  /-- the table as updated during the run. -/
  db : DB
  successful_updates : Nat
  skipped : Nat
  failed : Nat
  /-- instrumentation: ids that took the `skipped += 1` branch. -/
  skippedIds : List String
  /-- instrumentation: ids on which `extract_sections` was invoked. -/
  invoked : List String
  /-- instrumentation: `(id, sections)` pairs inserted into
  `extracted_sections` this run, most recent first. -/
  newEntries : List (String × SectionsOut)

/-- One iteration of the `for id, in documents` loop of `main`. -/
def processDoc (env : MainEnv) (st : MainState) (id : String) : MainState :=
  if env.jsonExists id then
    if (env.existing_sections id).isSome then
      { st with skipped := st.skipped + 1, skippedIds := id :: st.skippedIds }
    else
      let sections := env.extractResult id
      let st1 := { st with invoked := id :: st.invoked }
      if sections.abstract.isSome || sections.conclusion.isSome then
        let u := update_database_with_sections st1.db id sections
        if u.2 then
          { st1 with
            db := u.1
            extracted := fun j => if j = id then some sections else st1.extracted j
            newEntries := (id, sections) :: st1.newEntries
            successful_updates := st1.successful_updates + 1 }
        else { st1 with db := u.1, failed := st1.failed + 1 }
      else { st1 with failed := st1.failed + 1 }
  else { st with failed := st.failed + 1 }

/-- The initial run state of `main`: `extracted_sections` is a copy of the
loaded cache, all counters are zero. -/
def initState (env : MainEnv) : MainState :=
  { extracted := env.existing_sections
    db := env.db
    successful_updates := 0
    skipped := 0
    failed := 0
    skippedIds := []
    invoked := []
    newEntries := [] }

/-- The batch run of `main` in `scripts/extract_regex.py`: fold the
per-document step over the id list.  The final `extracted` map is what
`json.dump` persists to `sections_regex.json`. -/
def runMain (env : MainEnv) : MainState :=
  env.documents.foldl (processDoc env) (initState env)

/-! ## `WorkflowManager.run_full_workflow` — `scripts/workflow.py`

Each stage's external effect is abstracted to its boolean outcome
(`step_func()`); the model returns the workflow's boolean result together
with the ordered list of stages invoked. -/

/-- The fixed `steps` list of `run_full_workflow`, names in order. -/
def stageNames : List String :=
  ["clear", "fetch", "download", "parse", "extract", "summarise"]

/-- The `for step_name, step_func in steps` loop: invoke each stage in
order, stop and return `False` at the first failing stage (every stage's
failure aborts the run in the source).  Also returns the invocation
list. -/
def runSteps (exec : String → Bool) : List String → Bool × List String
  | [] => (true, [])
  | n :: rest =>
    if exec n then
      let r := runSteps exec rest
      (r.1, n :: r.2)
    else (false, [n])

/-- `run_full_workflow(start_from)`: with no `start_from`, run all stages;
otherwise find the first index whose name equals `start_from`, truncate
the list there and run the tail, or fail before invoking anything when
the name is not recognized (the `StopIteration` branch). -/
def run_full_workflow (exec : String → Bool) (start_from : Option String) :
    Bool × List String :=
  match start_from with
  | none => runSteps exec stageNames
  | some k =>
    match stageNames.findIdx? (fun n => n = k) with
    | some i => runSteps exec (stageNames.drop i)
    | none => (false, [])

/-! ## `run_pipeline` — `scripts/testing/run.py`

Script outcomes and the two snapshot exports are abstracted to booleans:
`scriptOk s` is the outcome of `run_script(s)`, `dumpSummariesOk` is
whether `dump_summaries` runs without raising, `dumpFullOk` likewise for
`dump_full_documents`. -/

structure PipelineEnv where
  scriptOk : String → Bool
  dumpSummariesOk : Bool
  dumpFullOk : Bool

/-- The `pipeline` list of `run_pipeline`: `(script, required)` pairs. -/
def pipelineScripts : List (String × Bool) :=
  [("fetch.py", true), ("download.py", true), ("parse.py", true),
   ("extract_regex.py", true), ("summarise.py", true)]

/-- The `for script, required in pipeline` loop.  A failing required
script stops the run with `False`.  After a successful `summarise.py`,
`dump_summaries()` is attempted; if it raises, the handler returns
`False` when `required` (the summarise entry's flag) is set — which it
is.  The post-extract sleep has no modelled effect. -/
def pipelineLoop (env : PipelineEnv) : List (String × Bool) → Bool
  | [] => true
  | (script, required) :: rest =>
    let success := env.scriptOk script
    if !success && required then false
    else if script = "summarise.py" && success && !env.dumpSummariesOk && required then
      false
    else pipelineLoop env rest

/-- `run_pipeline()`: run the script loop, then attempt the final
`dump_full_documents()`, whose failure is caught and only printed — the
function returns `True` regardless of `dumpFullOk`. -/
def run_pipeline (env : PipelineEnv) : Bool :=
  pipelineLoop env pipelineScripts

/-! ## `convert_pdf` / `convert_pdfs_parallel` — `scripts/parse_parallel.py`

A job abstracts one PDF: whether its output JSON already exists at start,
and whether the blocking conversion would succeed.  `convert_pdf` returns
its boolean outcome (`True` both for a skip and for a successful
conversion, `False` when the caught conversion error path is taken),
paired with an instrumentation flag recording whether the conversion was
actually dispatched. -/

structure Job where
  outputExists : Bool
  convOk : Bool
deriving DecidableEq

/-- `convert_pdf`: skip (returning `True`, without converting) when the
output file already exists; otherwise dispatch the conversion and return
its outcome (`False` on the caught exception path).  The second component
records whether `converter.convert` was invoked. -/
def convert_pdf (j : Job) : Bool × Bool :=
  if j.outputExists then (true, false) else (j.convOk, true)

/-- Worker assignment of `zip(input_paths, cycle(converters))` with the
two created instances: job `i` goes to instance `i % 2`. -/
def instanceOf (i : Nat) : Nat := i % 2

/-- The summary `convert_pdfs_parallel` prints after `asyncio.gather`. -/
structure ConvSummary where
  results : List Bool
  successful : Nat
  failed : Nat
  skipped : Nat
deriving DecidableEq

/-- `convert_pdfs_parallel` over a job list: one task per job (the `zip`
with the infinite `cycle` of converters keeps every input), gathered
without cancellation so each job's record is `convert_pdf` of that job
alone; then the source's tallies — `successful` counts `True` results,
`failed` counts `False` results (exceptions cannot surface since
`convert_pdf` catches them), `skipped` is the remainder. -/
def convert_pdfs_parallel (jobs : List Job) : ConvSummary :=
  let results := jobs.map (fun j => (convert_pdf j).1)
  let successful := results.countP (fun r => r)
  let failed := results.countP (fun r => !r)
  { results := results
    successful := successful
    failed := failed
    skipped := results.length - successful - failed }

/-! ## Auxiliary predicates and concrete demonstration inputs -/

/-- Does `needle` occur as a contiguous subsequence of the second list?
(Used only to state, decidably, that a demo text contains a heading.) -/
def hasSub (needle : List Char) : List Char → Bool
  | [] => (stripLitCS needle []).isSome
  | c :: t => (stripLitCS needle (c :: t)).isSome || hasSub needle t

/-- A list of inserts (most recent first) overlaid on a base mapping:
exactly the dictionary `extracted_sections` builds from the loaded cache
plus this run's inserts. -/
def overlay : List (String × SectionsOut) → (String → Option SectionsOut) → String →
    Option SectionsOut
  | [], base, j => base j
  | (i, s) :: rest, base, j => if j = i then some s else overlay rest base j

/-- The soundness facts recorded for every cache insert of a run. -/
def EntrySound (env : MainEnv) (p : String × SectionsOut) : Prop :=
  p.2 = env.extractResult p.1
  ∧ (p.2.abstract.isSome || p.2.conclusion.isSome) = true
  ∧ env.existing_sections p.1 = none
  ∧ p.1 ∈ env.documents
  ∧ env.jsonExists p.1 = true
  ∧ (env.db p.1).isSome = true

/-- The C3 fold invariant: `extracted` is exactly the loaded cache overlaid
with this run's inserts, every insert is sound, and the run never creates
or deletes a `full_documents` row. -/
def MainInv (env : MainEnv) (st : MainState) : Prop :=
  (∀ j, st.extracted j = overlay st.newEntries env.existing_sections j)
  ∧ (∀ p ∈ st.newEntries, EntrySound env p)
  ∧ (∀ j, (st.db j).isSome = (env.db j).isSome)

/-- A document text whose first abstract pattern matches with a capture of
exactly 50 normalized characters. -/
def c4text : List Char := "Abstract\n".data ++ 'a' :: List.replicate 49 'b'

/-- The same text with a 51-character body. -/
def c4textLong : List Char := "Abstract\n".data ++ 'a' :: List.replicate 50 'b'

/-- Text containing both a Conclusion heading and a Discussion heading, in
which the conclusion capture is cut short (at the numbered heading) below
the 50-character gate while the discussion capture qualifies. -/
def c5text : List Char :=
  ("Conclusion\nshort\n1. Analysis\nDiscussion\n" ++
    "This discussion section is long enough to pass the fifty char gate.").data

/-- The discussion body of `c5text`. -/
def c5disc : List Char :=
  "This discussion section is long enough to pass the fifty char gate.".data

/-- Text whose conclusion cascade qualifies. -/
def c5ctext : List Char :=
  ("Conclusion\nWe conclude that frobnication works well at scale and beyond.\n" ++
    "Acknowledgement\nThanks.").data

/-- The conclusion body of `c5ctext`. -/
def c5cval : List Char :=
  "We conclude that frobnication works well at scale and beyond.".data

/-- Text whose accepted conclusion capture contains a References token the
boundary lookaheads cannot stop (it is not preceded by a newline). -/
def c6text : List Char :=
  ("Conclusion\nWe conclude that frobnication works extremely well. " ++
    "References 1. J. Smith, Frobnication, 2020.").data

/-- The conclusion value the source stores for `c6text`. -/
def c6kept : List Char :=
  ("We conclude that frobnication works extremely well. " ++
    "References 1. J. Smith, Frobnication, 2020.").data

/-- The environment of the C2 counterexample: one document, present in the
loaded cache, whose conversion JSON file does not exist. -/
def c2env : MainEnv :=
  { documents := ["d1"]
    existing_sections := fun j => if j = "d1" then some ⟨none, none⟩ else none
    jsonExists := fun _ => false
    extractResult := fun _ => ⟨none, none⟩
    db := fun _ => none }

/-- The environment of the C3 counterexample: one uncached document whose
JSON exists but whose extraction result has both fields null. -/
def c3env : MainEnv :=
  { documents := ["d1"]
    existing_sections := fun _ => none
    jsonExists := fun _ => true
    extractResult := fun _ => ⟨none, none⟩
    db := fun j => if j = "d1" then some ⟨none, none⟩ else none }

/-! ## Lemmas about the persist step -/

/-- The persist step touches no row other than `id`. -/
theorem update_db_other (db : DB) (id j : String) (s : SectionsOut) (hj : j ≠ id) :
    (update_database_with_sections db id s).1 j = db j := by
  unfold update_database_with_sections
  cases h : db id with
  | none => rfl
  | some row =>
    by_cases hb : s.abstract.isSome || s.conclusion.isSome
    · simp only [hb, if_true]
      simp [hj]
    · simp [hb]

/-- The persist step never creates or deletes a row: row existence is
unchanged at every key. -/
theorem update_db_isSome (db : DB) (id j : String) (s : SectionsOut) :
    ((update_database_with_sections db id s).1 j).isSome = (db j).isSome := by
  unfold update_database_with_sections
  cases h : db id with
  | none => rfl
  | some row =>
    by_cases hb : s.abstract.isSome || s.conclusion.isSome
    · simp only [hb, if_true]
      by_cases hj : j = id
      · subst hj; simp [h]
      · simp [hj]
    · simp [hb]

/-- When the row exists and at least one field is non-null, the write goes
through and the verification re-read confirms it: the call returns `True`. -/
theorem update_db_ok_of_some (db : DB) (id : String) (s : SectionsOut) (row : DocRow)
    (h : db id = some row) (hs : (s.abstract.isSome || s.conclusion.isSome) = true) :
    (update_database_with_sections db id s).2 = true := by
  unfold update_database_with_sections
  rw [h]
  simp only [hs, if_true]
  cases ha : s.abstract <;> cases hc : s.conclusion <;> simp [ha, hc] at hs ⊢

/-- A `True` return implies the row existed. -/
theorem update_db_ok_isSome (db : DB) (id : String) (s : SectionsOut)
    (h : (update_database_with_sections db id s).2 = true) : (db id).isSome = true := by
  cases hd : db id with
  | none =>
    unfold update_database_with_sections at h
    rw [hd] at h
    simp at h
  | some row => rfl

/-- C1.  For a document present in `full_documents`, the persist step
includes in the update exactly the fields that are non-null in the
extraction result (each null field keeps the row's current value), writes
nothing at all — returning `False` — when both fields are null, and
touches no other row.  In particular an existing non-null abstract or
conclusion is never overwritten with null. -/
theorem c1_merge_monotonic (db : DB) (id : String) (res : SectionsOut) (row : DocRow)
    (h : db id = some row) :
    (update_database_with_sections db id res).1 id =
      some { abstract := match res.abstract with
                         | some a => some a
                         | none => row.abstract
             conclusion := match res.conclusion with
                           | some c => some c
                           | none => row.conclusion }
    ∧ (res.abstract = none → res.conclusion = none →
        update_database_with_sections db id res = (db, false))
    ∧ (∀ j, j ≠ id → (update_database_with_sections db id res).1 j = db j) := by
  refine ⟨?_, ?_, fun j hj => update_db_other db id j res hj⟩
  · unfold update_database_with_sections
    rw [h]
    cases ha : res.abstract <;> cases hc : res.conclusion <;> simp [ha, hc, h]
  · intro ha hc
    unfold update_database_with_sections
    rw [h]
    simp [ha, hc]

/-- Witness for C1 at the spec's own example: writing
`{abstract: null, conclusion: "X"}` to a document whose row is
`{abstract: "A", conclusion: null}` yields `{abstract: "A",
conclusion: "X"}` — the null never clobbers `"A"`. -/
theorem c1_merge_monotonic_witness :
    (update_database_with_sections
        (fun j => if j = "d1" then some ⟨some ['A'], none⟩ else none) "d1"
        ⟨none, some ['X']⟩).1 "d1" = some ⟨some ['A'], some ['X']⟩ := by
  have h := (c1_merge_monotonic
    (fun j => if j = "d1" then some ⟨some ['A'], none⟩ else none) "d1"
    ⟨none, some ['X']⟩ ⟨some ['A'], none⟩ (by simp)).1
  simpa using h

/-- C10.  For a document id with no row in `full_documents`, the persist
step performs no write and returns `False`, whatever the extraction
result: the extraction stage never creates a Document record. -/
theorem c10_missing_row_no_write (db : DB) (id : String) (res : SectionsOut)
    (h : db id = none) :
    update_database_with_sections db id res = (db, false) := by
  unfold update_database_with_sections
  rw [h]

/-- Witness for C10: on an empty table, persisting a non-null result for
`"d1"` writes nothing and reports failure. -/
theorem c10_missing_row_no_write_witness :
    update_database_with_sections (fun _ => none) "d1" ⟨some ['A'], none⟩ =
      ((fun _ => none : DB), false) :=
  c10_missing_row_no_write (fun _ => none) "d1" ⟨some ['A'], none⟩ rfl

/-! ## Lemmas about `run_full_workflow` -/

/-- The stages a run invokes form a prefix of the stage list it was given. -/
theorem runSteps_invoked_prefix (exec : String → Bool) :
    ∀ l : List String, ∃ t, (runSteps exec l).2 ++ t = l := by
  intro l
  induction l with
  | nil => exact ⟨[], rfl⟩
  | cons n rest ih =>
    by_cases he : exec n
    · obtain ⟨t, ht⟩ := ih
      exact ⟨t, by simp [runSteps, he, ht]⟩
    · exact ⟨rest, by simp [runSteps, he]⟩

/-- When every stage succeeds, the run invokes the whole list. -/
theorem runSteps_invoked_all (exec : String → Bool) (hs : ∀ n, exec n = true) :
    ∀ l : List String, (runSteps exec l).2 = l := by
  intro l
  induction l with
  | nil => rfl
  | cons n rest ih => simp [runSteps, hs n, ih]

/-- C7.  For a recognized stage name `k` at index `i`, `run_full_workflow`
invokes only stages from the truncated tail `stageNames.drop i` — a stage
ordered before `k` is never invoked, whatever the stage outcomes — and
when every stage succeeds it invokes exactly the stages from `k` onward in
their fixed order.  In particular `start_from = "extract"` never invokes
clear, fetch, download, or parse. -/
theorem c7_start_from_truncates (exec : String → Bool) (k : String) (i : Nat)
    (hk : stageNames.findIdx? (fun n => n = k) = some i) :
    (∃ t, (run_full_workflow exec (some k)).2 ++ t = stageNames.drop i)
    ∧ (∀ n ∈ (run_full_workflow exec (some k)).2, n ∉ stageNames.take i)
    ∧ ((∀ n, exec n = true) → (run_full_workflow exec (some k)).2 = stageNames.drop i)
    ∧ (k = "extract" →
        "clear" ∉ (run_full_workflow exec (some k)).2
        ∧ "fetch" ∉ (run_full_workflow exec (some k)).2
        ∧ "download" ∉ (run_full_workflow exec (some k)).2
        ∧ "parse" ∉ (run_full_workflow exec (some k)).2) := by
  have hrw : run_full_workflow exec (some k) = runSteps exec (stageNames.drop i) := by
    simp only [run_full_workflow, hk]
  have hpre := runSteps_invoked_prefix exec (stageNames.drop i)
  have hmem : ∀ n ∈ (run_full_workflow exec (some k)).2, n ∈ stageNames.drop i := by
    intro n hn
    rw [hrw] at hn
    obtain ⟨t, ht⟩ := hpre
    rw [← ht]
    exact List.mem_append_left t hn
  have hnd : stageNames.Nodup := by decide
  have hdisj : ∀ n ∈ stageNames.drop i, n ∉ stageNames.take i := by
    intro n hdrop htake
    have := List.take_append_drop i stageNames
    rw [← this] at hnd
    exact (List.disjoint_of_nodup_append hnd) htake hdrop
  refine ⟨by rw [hrw]; exact hpre, fun n hn => hdisj n (hmem n hn), ?_, ?_⟩
  · intro hs
    rw [hrw]
    exact runSteps_invoked_all exec hs _
  · intro hke
    subst hke
    have hi : i = 4 := by
      have h4 : stageNames.findIdx? (fun n => n = "extract") = some 4 := by decide
      rw [h4] at hk
      exact (Option.some.inj hk).symm
    subst hi
    refine ⟨fun hc => ?_, fun hc => ?_, fun hc => ?_, fun hc => ?_⟩ <;>
      · have := hmem _ hc
        simp [stageNames] at this

/-- Witness for C7: with every stage succeeding,
`run_full_workflow(start_from="extract")` invokes exactly
`["extract", "summarise"]`, and in particular not `"clear"`. -/
theorem c7_start_from_truncates_witness :
    (run_full_workflow (fun _ => true) (some "extract")).2 = ["extract", "summarise"]
    ∧ "clear" ∉ (run_full_workflow (fun _ => true) (some "extract")).2 := by
  have h := c7_start_from_truncates (fun _ => true) "extract" 4 (by decide)
  exact ⟨h.2.2.1 (fun _ => rfl), (h.2.2.2 rfl).1⟩

/-! ## Theorems about `run_pipeline` -/

/-- C8, counterexample to the claim as stated: with every pipeline script
succeeding and only the post-summarization snapshot export
(`dump_summaries`) failing, `run_pipeline` returns `False` — the export
failure is *not* absorbed, because the handler re-checks the summarise
entry's `required` flag, which is set. -/
theorem c8_counterexample :
    (PipelineEnv.mk (fun _ => true) false true).dumpSummariesOk = false
    ∧ (∀ s, (PipelineEnv.mk (fun _ => true) false true).scriptOk s = true)
    ∧ run_pipeline (PipelineEnv.mk (fun _ => true) false true) = false :=
  ⟨rfl, fun _ => rfl, by decide⟩

/-- C8 as amended.  Failure of the end-of-run snapshot export
(`dump_full_documents`) is absorbed: the result of `run_pipeline` does not
depend on it at all.  Failure of the snapshot export triggered after a
successful summarization stage, however, makes the run report failure,
because `dump_summaries`'s exception handler returns `False` when the
summarise entry is marked required — which it is. -/
theorem c8_snapshot_failure (env : PipelineEnv) :
    (∀ b, run_pipeline ⟨env.scriptOk, env.dumpSummariesOk, b⟩ = run_pipeline env)
    ∧ ((∀ s, env.scriptOk s = true) → env.dumpSummariesOk = false →
        run_pipeline env = false)
    ∧ ((∀ s, env.scriptOk s = true) → env.dumpSummariesOk = true →
        run_pipeline env = true) := by
  refine ⟨fun b => rfl, ?_, ?_⟩
  · intro hs hd
    simp [run_pipeline, pipelineScripts, pipelineLoop, hs, hd]
  · intro hs hd
    simp [run_pipeline, pipelineScripts, pipelineLoop, hs, hd]

/-- Witness for C8: all scripts succeeding, the run succeeds despite a
failing final export, and fails when `dump_summaries` fails. -/
theorem c8_snapshot_failure_witness :
    run_pipeline ⟨fun _ => true, true, false⟩ = true
    ∧ run_pipeline ⟨fun _ => true, false, true⟩ = false :=
  ⟨(c8_snapshot_failure ⟨fun _ => true, true, false⟩).2.2 (fun _ => rfl) rfl,
   (c8_snapshot_failure ⟨fun _ => true, false, true⟩).2.1 (fun _ => rfl) rfl⟩

/-! ## Theorems about `convert_pdfs_parallel` -/

/-- C9, counterexample to the claim as stated: five jobs, the first with
its output already existing.  Five outcome records are produced, but the
skip is counted in the *succeeded* tally (a skip returns `True`, the same
value as a success) and the skipped tally is 0, not 1. -/
theorem c9_counterexample :
    (convert_pdfs_parallel
        [⟨true, true⟩, ⟨false, true⟩, ⟨false, true⟩, ⟨false, false⟩, ⟨false, true⟩]).results.length = 5
    ∧ (convert_pdfs_parallel
        [⟨true, true⟩, ⟨false, true⟩, ⟨false, true⟩, ⟨false, false⟩, ⟨false, true⟩]).successful = 4
    ∧ (convert_pdfs_parallel
        [⟨true, true⟩, ⟨false, true⟩, ⟨false, true⟩, ⟨false, false⟩, ⟨false, true⟩]).skipped = 0 := by
  decide

/-- C9 as amended.  `convert_pdfs_parallel` over `N` jobs produces exactly
`N` outcome records; each record is `convert_pdf` of its own job alone
(no job is processed twice and no job's failure disturbs another's
record); a job whose output already exists performs no conversion and
returns `True`, so it is counted in the succeeded tally; the skipped
tally as computed is always 0 and succeeded + failed = `N`. -/
theorem c9_outcome_records (jobs : List Job) :
    (convert_pdfs_parallel jobs).results.length = jobs.length
    ∧ (∀ i, (convert_pdfs_parallel jobs).results.get? i =
        (jobs.get? i).map (fun j => (convert_pdf j).1))
    ∧ (∀ j ∈ jobs, j.outputExists = true → convert_pdf j = (true, false))
    ∧ (convert_pdfs_parallel jobs).successful + (convert_pdfs_parallel jobs).failed
        = jobs.length
    ∧ (convert_pdfs_parallel jobs).skipped = 0 := by
  have hlen : (convert_pdfs_parallel jobs).results.length = jobs.length := by
    simp [convert_pdfs_parallel]
  have hsum : (convert_pdfs_parallel jobs).successful + (convert_pdfs_parallel jobs).failed
      = jobs.length := by
    simp only [convert_pdfs_parallel]
    have := List.length_eq_countP_add_countP (fun r => r)
      (l := jobs.map (fun j => (convert_pdf j).1))
    simp only [List.length_map] at this
    simpa [Function.comp] using this.symm
  refine ⟨hlen, ?_, ?_, hsum, ?_⟩
  · intro i
    simp [convert_pdfs_parallel, List.get?_map]
  · intro j _ hj
    simp [convert_pdf, hj]
  · have hsk : (convert_pdfs_parallel jobs).skipped =
        (convert_pdfs_parallel jobs).results.length -
          (convert_pdfs_parallel jobs).successful -
          (convert_pdfs_parallel jobs).failed := rfl
    omega

/-- Witness for C9: a singleton job with existing output yields one record,
a skip that converts nothing, and a zero skipped tally. -/
theorem c9_outcome_records_witness :
    (convert_pdfs_parallel [⟨true, true⟩]).results.length = 1
    ∧ convert_pdf ⟨true, true⟩ = (true, false)
    ∧ (convert_pdfs_parallel [⟨true, true⟩]).skipped = 0 :=
  ⟨(c9_outcome_records [⟨true, true⟩]).1,
   (c9_outcome_records [⟨true, true⟩]).2.2.1 ⟨true, true⟩ (by decide) rfl,
   (c9_outcome_records [⟨true, true⟩]).2.2.2.2⟩

/-! ## Theorems about the cascades and the 50-character gate -/

/-- Any value a cascade returns passed the strict length gate `len > 50`. -/
theorem tryCascade_accepted_length (post : List Char → List Char) (content : List Char) :
    ∀ (pats : List (RE × RE)) (s : List Char),
      tryCascade post content pats = some s → 50 < s.length := by
  intro pats
  induction pats with
  | nil => intro s h; simp [tryCascade] at h
  | cons p rest ih =>
    intro s h
    obtain ⟨pre, bound⟩ := p
    rw [tryCascade] at h
    cases hc : patCapture pre bound content with
    | none => rw [hc] at h; exact ih s h
    | some cap =>
      rw [hc] at h
      dsimp only at h
      by_cases hl : 50 < (post (normText cap)).length
      · rw [if_pos hl] at h
        cases h
        exact hl
      · rw [if_neg hl] at h
        exact ih s h

/-- When the head pattern of a cascade matches and its normalized (and
post-processed) capture passes the gate, that capture is the cascade's
result: later patterns are not consulted. -/
theorem tryCascade_first_match (post : List Char → List Char) (content : List Char)
    (pre bound : RE) (rest : List (RE × RE)) (cap : List Char)
    (hc : patCapture pre bound content = some cap)
    (hl : 50 < (post (normText cap)).length) :
    tryCascade post content ((pre, bound) :: rest) = some (post (normText cap)) := by
  rw [tryCascade, hc]
  dsimp only
  rw [if_pos hl]

/-- C4 (amended: the gate is strict, `len > 50`).  A capture whose
normalized text is 50 characters or shorter is never accepted by any
cascade — every abstract or conclusion value in the result is strictly
longer than 50 — and a capture whose normalized, post-processed text is
strictly longer than 50 characters is accepted when its pattern is the
first to match. -/
theorem c4_fifty_char_gate :
    (∀ content s, (extract_sections content).abstract = some s → 50 < s.length)
    ∧ (∀ content s, (extract_sections content).conclusion = some s → 50 < s.length)
    ∧ (∀ (post : List Char → List Char) content pre bound rest cap,
        patCapture pre bound content = some cap →
        50 < (post (normText cap)).length →
        tryCascade post content ((pre, bound) :: rest) = some (post (normText cap))) := by
  refine ⟨?_, ?_, fun post content pre bound rest cap hc hl =>
    tryCascade_first_match post content pre bound rest cap hc hl⟩
  · intro content s h
    unfold extract_sections at h
    by_cases he : (stripWs content).isEmpty
    · rw [if_pos he] at h
      simp at h
    · rw [if_neg he] at h
      dsimp only at h
      exact tryCascade_accepted_length _ content abstract_patterns s h
  · intro content s h
    unfold extract_sections at h
    by_cases he : (stripWs content).isEmpty
    · rw [if_pos he] at h
      simp at h
    · rw [if_neg he] at h
      dsimp only at h
      have h' : conclusionOf content = some s := h
      unfold conclusionOf at h'
      cases hcc : tryCascade splitFirst content conclusion_patterns with
      | some c =>
        rw [hcc] at h'
        cases h'
        exact tryCascade_accepted_length _ content conclusion_patterns s hcc
      | none =>
        rw [hcc] at h'
        exact tryCascade_accepted_length _ content discussion_patterns s h'

/-- C4, counterexample to the claim as stated: on `c4text` the first
abstract pattern matches and its normalized capture is exactly 50
characters, yet the abstract is rejected (`None`) — the source's gate is
`len > 50`, so "exactly 50 characters or more is accepted" fails at 50. -/
theorem c4_counterexample :
    (patCapture absPre1 absBound1 c4text).map (fun cap => (normText cap).length)
      = some 50
    ∧ (extract_sections c4text).abstract = none := by
  constructor
  · decide
  · decide

/-- Witness for C4: a 51-character capture of the first-matching pattern is
accepted by the abstract cascade. -/
theorem c4_fifty_char_gate_witness :
    tryCascade (fun t => t) c4textLong ((absPre1, absBound1) :: abstract_patterns.drop 1)
      = some (normText ('a' :: List.replicate 50 'b'))
    ∧ 50 < (normText ('a' :: List.replicate 50 'b')).length := by
  refine ⟨?_, by decide⟩
  exact c4_fifty_char_gate.2.2 (fun t => t) c4textLong absPre1 absBound1
    (abstract_patterns.drop 1) ('a' :: List.replicate 50 'b') (by decide) (by decide)

/-! ## Theorems about the discussion fallback (C5) -/

/-- C5 as amended.  The discussion cascade is consulted if and only if the
conclusion cascade produced no qualifying match; a qualifying conclusion
capture always wins and is tagged conclusion-sourced; when the conclusion
cascade found nothing and the discussion capture qualifies, the result's
conclusion equals the discussion text tagged discussion-sourced.  (The
claim's final conjunct — that text containing both headings always takes
the conclusion pattern — fails when the conclusion capture is too short
to qualify; see the counterexample.) -/
theorem c5_discussion_fallback (content : List Char)
    (h : (stripWs content).isEmpty = false) :
    (∀ c, tryCascade splitFirst content conclusion_patterns = some c →
        (extract_sections content).conclusion = some c
        ∧ conclusionSourceOf content = some ConclusionSource.conclusion)
    ∧ (∀ d, tryCascade splitFirst content conclusion_patterns = none →
        tryCascade splitFirst content discussion_patterns = some d →
        (extract_sections content).conclusion = some d
        ∧ conclusionSourceOf content = some ConclusionSource.discussion)
    ∧ (conclusionSourceOf content = some ConclusionSource.discussion ↔
        tryCascade splitFirst content conclusion_patterns = none
        ∧ ∃ d, tryCascade splitFirst content discussion_patterns = some d) := by
  unfold extract_sections conclusionSourceOf conclusionOf
  cases hcc : tryCascade splitFirst content conclusion_patterns <;>
    cases hdd : tryCascade splitFirst content discussion_patterns <;>
      simp [h, hcc, hdd]

/-- C5, counterexample to the claim as stated: `c5text` contains both a
`Conclusion` heading and a `Discussion` heading, yet the result's
conclusion comes from the discussion cascade (discussion-sourced), because
the conclusion capture fails the 50-character gate. -/
theorem c5_counterexample :
    hasSub "Conclusion\n".data c5text = true
    ∧ hasSub "Discussion\n".data c5text = true
    ∧ tryCascade splitFirst c5text conclusion_patterns = none
    ∧ (extract_sections c5text).conclusion = some c5disc
    ∧ conclusionSourceOf c5text = some ConclusionSource.discussion :=
  ⟨by decide, by decide, by decide, by decide, by decide⟩

/-- Witness for C5: a qualifying conclusion is conclusion-sourced, and with
no qualifying conclusion a qualifying discussion becomes the conclusion,
discussion-sourced. -/
theorem c5_discussion_fallback_witness :
    (extract_sections c5ctext).conclusion = some c5cval
    ∧ conclusionSourceOf c5ctext = some ConclusionSource.conclusion
    ∧ (extract_sections c5text).conclusion = some c5disc
    ∧ conclusionSourceOf c5text = some ConclusionSource.discussion := by
  have h1 := (c5_discussion_fallback c5ctext (by decide)).1 c5cval (by decide)
  have h2 := (c5_discussion_fallback c5text (by decide)).2.1 c5disc (by decide) (by decide)
  exact ⟨h1.1, h1.2, h2.1, h2.2⟩

/-! ## Theorems about the References truncation (C6) -/

/-- The output of `collapseAux` — hence of whitespace normalization —
never contains a newline: every whitespace run is replaced by a single
space. -/
theorem collapseAux_no_nl (s : List Char) : ∀ b : Bool, '\n' ∉ collapseAux b s := by
  induction s with
  | nil => intro b; rw [collapseAux]; simp
  | cons c t ih =>
    intro b
    rw [collapseAux]
    by_cases hw : isWs c
    · rw [if_pos hw]
      cases b with
      | true => simpa using ih true
      | false =>
        intro hmem
        exact ih true (by simpa using hmem)
    · rw [if_neg hw]
      intro hmem
      rcases List.mem_cons.mp hmem with hEq | hmem2
      · apply hw
        rw [← hEq]
        rfl
      · exact ih false hmem2

/-- Every alternative of the References split pattern begins with `\n`, so
it cannot match at a position whose first character is not a newline. -/
theorem splitRef_not_match {c : Char} (hc : ¬c = '\n') (t : List Char) :
    matchesAt splitRefPat (c :: t) = false := by
  have h1 : isNl c = false := by simp [isNl, hc]
  simp [matchesAt, splitRefPat, matchRE, h1]

/-- On a newline-free string the References split removes nothing. -/
theorem splitFirst_no_nl : ∀ s : List Char, '\n' ∉ s → splitFirst s = s := by
  intro s
  induction s with
  | nil => intro _; rfl
  | cons c t ih =>
    intro h
    have hc : ¬c = '\n' := fun hEq => h (List.mem_cons.mpr (Or.inl hEq.symm))
    rw [splitFirst, splitRef_not_match hc t]
    simp only [Bool.false_eq_true, if_false, List.cons.injEq, true_and]
    exact ih (fun hm => h (List.mem_cons_of_mem c hm))

/-- C6.  The second cut is inert: it runs on the whitespace-normalized
capture, normalization has already replaced every newline with a space,
and every alternative of the split pattern requires a newline — so
`splitFirst` after `collapseWs` removes nothing, on every input.
Consequently the stored conclusion for `c6text` retains the text following
its References token, untruncated. -/
theorem c6_references_cut_inert :
    (∀ s : List Char, splitFirst (collapseWs s) = collapseWs s)
    ∧ (extract_sections c6text).conclusion = some c6kept
    ∧ hasSub "References".data c6kept = true :=
  ⟨fun s => splitFirst_no_nl _ (collapseAux_no_nl s false), by decide, by decide⟩

/-! ## Theorems about the batch driver `main` (C2, C3) -/

/-- One driver step neither invokes the extractor on, nor writes the row
of, an id that is present in the loaded cache. -/
theorem processDoc_cached_untouched (env : MainEnv) (st : MainState) (d id : String)
    (h : (env.existing_sections id).isSome)
    (h1 : id ∉ st.invoked) (h2 : st.db id = env.db id) :
    id ∉ (processDoc env st d).invoked ∧ (processDoc env st d).db id = env.db id := by
  unfold processDoc
  by_cases hj : env.jsonExists d
  · rw [if_pos hj]
    by_cases hcache : (env.existing_sections d).isSome
    · rw [if_pos hcache]
      exact ⟨h1, h2⟩
    · rw [if_neg hcache]
      have hd : d ≠ id := fun hEq => hcache (hEq ▸ h)
      have hnotin : id ∉ d :: st.invoked := by
        intro hm
        rcases List.mem_cons.mp hm with hEq | hm2
        · exact hd hEq.symm
        · exact h1 hm2
      have hdb : (update_database_with_sections st.db d (env.extractResult d)).1 id
          = env.db id :=
        (update_db_other st.db d id (env.extractResult d) (fun hEq => hd hEq.symm)).trans h2
      dsimp only
      by_cases hb : ((env.extractResult d).abstract.isSome
          || (env.extractResult d).conclusion.isSome) = true
      · rw [if_pos hb]
        by_cases hok : (update_database_with_sections st.db d (env.extractResult d)).2 = true
        · rw [if_pos hok]
          exact ⟨hnotin, hdb⟩
        · rw [if_neg hok]
          exact ⟨hnotin, hdb⟩
      · rw [if_neg hb]
        exact ⟨hnotin, h2⟩
  · rw [if_neg hj]
    exact ⟨h1, h2⟩

/-- The cached-id non-interference invariant carried through the fold. -/
theorem foldl_cached_untouched (env : MainEnv) (id : String)
    (h : (env.existing_sections id).isSome) :
    ∀ (docs : List String) (st : MainState),
      id ∉ st.invoked → st.db id = env.db id →
      id ∉ (docs.foldl (processDoc env) st).invoked
      ∧ (docs.foldl (processDoc env) st).db id = env.db id := by
  intro docs
  induction docs with
  | nil => intro st h1 h2; exact ⟨h1, h2⟩
  | cons d rest ih =>
    intro st h1 h2
    rw [List.foldl_cons]
    obtain ⟨h1', h2'⟩ := processDoc_cached_untouched env st d id h h1 h2
    exact ih (processDoc env st d) h1' h2'

/-- The `skippedIds` instrumentation only grows. -/
theorem processDoc_skipped_mono (env : MainEnv) (st : MainState) (d : String) :
    ∀ i ∈ st.skippedIds, i ∈ (processDoc env st d).skippedIds := by
  intro i hi
  unfold processDoc
  by_cases hj : env.jsonExists d
  · rw [if_pos hj]
    by_cases hcache : (env.existing_sections d).isSome
    · rw [if_pos hcache]
      exact List.mem_cons_of_mem d hi
    · rw [if_neg hcache]
      dsimp only
      by_cases hb : ((env.extractResult d).abstract.isSome
          || (env.extractResult d).conclusion.isSome) = true
      · rw [if_pos hb]
        by_cases hok : (update_database_with_sections st.db d (env.extractResult d)).2 = true
        · rw [if_pos hok]; exact hi
        · rw [if_neg hok]; exact hi
      · rw [if_neg hb]; exact hi
  · rw [if_neg hj]
    exact hi

/-- `skippedIds` monotonicity through the fold. -/
theorem foldl_skipped_mono (env : MainEnv) :
    ∀ (docs : List String) (st : MainState) (i : String),
      i ∈ st.skippedIds → i ∈ (docs.foldl (processDoc env) st).skippedIds := by
  intro docs
  induction docs with
  | nil => intro st i hi; exact hi
  | cons d rest ih =>
    intro st i hi
    rw [List.foldl_cons]
    exact ih (processDoc env st d) i (processDoc_skipped_mono env st d i hi)

/-- A cached id whose conversion JSON exists takes the skip branch when the
loop reaches it. -/
theorem foldl_cached_skipped (env : MainEnv) (id : String)
    (h : (env.existing_sections id).isSome) (hjson : env.jsonExists id = true) :
    ∀ (docs : List String) (st : MainState), id ∈ docs →
      id ∈ (docs.foldl (processDoc env) st).skippedIds := by
  intro docs
  induction docs with
  | nil => intro st hi; exact absurd hi (List.not_mem_nil id)
  | cons d rest ih =>
    intro st hi
    rw [List.foldl_cons]
    rcases List.mem_cons.mp hi with hEq | hm
    · subst hEq
      apply foldl_skipped_mono
      unfold processDoc
      rw [if_pos hjson, if_pos h]
      exact List.mem_cons_self id st.skippedIds
    · exact ih (processDoc env st d) hm

/-- C2 as amended.  An id present in the loaded `sections_regex.json`
cache is never passed to `extract_sections` during the run and its
`full_documents` row is never written — and it is counted as skipped
provided it appears in the document list and its conversion JSON exists
(an id in the cache whose JSON file is missing is counted as failed
instead, and an id absent from `full_documents` is not visited at all). -/
theorem c2_cached_id_skipped (env : MainEnv) (id : String)
    (h : (env.existing_sections id).isSome = true) :
    id ∉ (runMain env).invoked
    ∧ (runMain env).db id = env.db id
    ∧ (id ∈ env.documents → env.jsonExists id = true → id ∈ (runMain env).skippedIds) := by
  have hmain := foldl_cached_untouched env id h env.documents (initState env)
    (List.not_mem_nil id) rfl
  refine ⟨hmain.1, hmain.2, fun hdoc hjson => ?_⟩
  exact foldl_cached_skipped env id h hjson env.documents (initState env) hdoc

/-- C2, counterexample to the claim as stated: `"d1"` is in the loaded
cache, but because its conversion JSON is missing the run counts it as
failed, not skipped — the skipped tally stays 0. -/
theorem c2_counterexample :
    (c2env.existing_sections "d1").isSome = true
    ∧ (runMain c2env).skipped = 0
    ∧ (runMain c2env).failed = 1 :=
  ⟨by decide, by decide, by decide⟩

/-- Witness for C2: with one cached document whose JSON exists, the run
invokes the extractor on nothing, writes nothing, and counts the id as
skipped. -/
theorem c2_cached_id_skipped_witness :
    "d1" ∉ (runMain ⟨["d1"], fun j => if j = "d1" then some ⟨none, none⟩ else none,
        fun _ => true, fun _ => ⟨none, none⟩, fun _ => none⟩).invoked
    ∧ "d1" ∈ (runMain ⟨["d1"], fun j => if j = "d1" then some ⟨none, none⟩ else none,
        fun _ => true, fun _ => ⟨none, none⟩, fun _ => none⟩).skippedIds := by
  have h := c2_cached_id_skipped
    ⟨["d1"], fun j => if j = "d1" then some ⟨none, none⟩ else none,
      fun _ => true, fun _ => ⟨none, none⟩, fun _ => none⟩ "d1" (by decide)
  exact ⟨h.1, h.2.2 (by decide) rfl⟩

/-- One driver step preserves the C3 invariant. -/
theorem processDoc_maininv (env : MainEnv) (st : MainState) (d : String)
    (hd : d ∈ env.documents) (hi : MainInv env st) :
    MainInv env (processDoc env st d) := by
  obtain ⟨ha, hb, hc⟩ := hi
  unfold processDoc
  by_cases hj : env.jsonExists d
  · rw [if_pos hj]
    by_cases hcache : (env.existing_sections d).isSome
    · rw [if_pos hcache]
      exact ⟨ha, hb, hc⟩
    · rw [if_neg hcache]
      have hnone : env.existing_sections d = none :=
        Option.not_isSome_iff_eq_none.mp hcache
      dsimp only
      by_cases hnn : ((env.extractResult d).abstract.isSome
          || (env.extractResult d).conclusion.isSome) = true
      · rw [if_pos hnn]
        by_cases hok : (update_database_with_sections st.db d (env.extractResult d)).2 = true
        · rw [if_pos hok]
          refine ⟨?_, ?_, ?_⟩
          · intro j
            by_cases hjd : j = d
            · subst hjd
              simp [overlay]
            · simp [overlay, hjd, ha j]
          · intro p hp
            rcases List.mem_cons.mp hp with hEq | hm
            · subst hEq
              have hrow : (st.db d).isSome = true :=
                update_db_ok_isSome st.db d (env.extractResult d) hok
              exact ⟨rfl, hnn, hnone, hd, hj, (hc d) ▸ hrow⟩
            · exact hb p hm
          · intro j
            rw [update_db_isSome st.db d j (env.extractResult d)]
            exact hc j
        · rw [if_neg hok]
          refine ⟨ha, hb, ?_⟩
          intro j
          rw [update_db_isSome st.db d j (env.extractResult d)]
          exact hc j
      · rw [if_neg hnn]
        exact ⟨ha, hb, hc⟩
  · rw [if_neg hj]
    exact ⟨ha, hb, hc⟩

/-- The C3 invariant carried through the fold. -/
theorem foldl_maininv (env : MainEnv) :
    ∀ (docs : List String) (st : MainState),
      (∀ d ∈ docs, d ∈ env.documents) → MainInv env st →
      MainInv env (docs.foldl (processDoc env) st) := by
  intro docs
  induction docs with
  | nil => intro st _ hi; exact hi
  | cons d rest ih =>
    intro st hsub hi
    rw [List.foldl_cons]
    exact ih (processDoc env st d)
      (fun e he => hsub e (List.mem_cons_of_mem d he))
      (processDoc_maininv env st d (hsub d (List.mem_cons_self d rest)) hi)

/-- When every insert's key is absent from the base, the overlay leaves
keys present in the base untouched. -/
theorem overlay_preserves_base (base : String → Option SectionsOut) :
    ∀ (entries : List (String × SectionsOut)) (j : String),
      (∀ p ∈ entries, base p.1 = none) → (base j).isSome = true →
      overlay entries base j = base j := by
  intro entries
  induction entries with
  | nil => intro j _ _; rfl
  | cons p rest ih =>
    intro j hnone hj
    obtain ⟨i, s⟩ := p
    rw [overlay]
    by_cases hji : j = i
    · subst hji
      have := hnone (j, s) (List.mem_cons_self _ _)
      rw [this] at hj
      simp at hj
    · rw [if_neg hji]
      exact ih j (fun q hq => hnone q (List.mem_cons_of_mem _ hq)) hj

/-- C3 as amended.  The mapping persisted to `sections_regex.json` at the
end of a run is the loaded mapping overlaid with exactly this run's
inserts; every insert is a newly computed result with at least one
non-null field whose `full_documents` update succeeded on an existing
row (ids absent from the loaded cache); entries loaded at the start are
preserved verbatim.  Results with both fields null are *not* recorded. -/
theorem c3_cache_union (env : MainEnv) :
    (∀ j, (runMain env).extracted j = overlay (runMain env).newEntries env.existing_sections j)
    ∧ (∀ p ∈ (runMain env).newEntries, EntrySound env p)
    ∧ (∀ j, (env.existing_sections j).isSome = true →
        (runMain env).extracted j = env.existing_sections j) := by
  have hinv : MainInv env (runMain env) :=
    foldl_maininv env env.documents (initState env) (fun d hd => hd)
      ⟨fun j => rfl, fun p hp => absurd hp (List.not_mem_nil p), fun j => rfl⟩
  refine ⟨hinv.1, hinv.2.1, fun j hj => ?_⟩
  rw [hinv.1 j]
  exact overlay_preserves_base env.existing_sections (runMain env).newEntries j
    (fun p hp => (hinv.2.1 p hp).2.2.1) hj

/-- C3, counterexample to the claim as stated: `"d1"`'s newly computed
result has both fields null, yet the persisted cache does not contain it —
the run records it as failed and the cache stays empty, whereas the claim
requires the union to include the null-null result. -/
theorem c3_counterexample :
    c3env.extractResult "d1" = ⟨none, none⟩
    ∧ ("d1" ∈ c3env.documents)
    ∧ c3env.jsonExists "d1" = true
    ∧ (runMain c3env).extracted "d1" = none
    ∧ (runMain c3env).failed = 1 :=
  ⟨rfl, by decide, rfl, by decide, by decide⟩

/-- Witness for C3: an entry loaded from the cache survives the run
verbatim in the persisted mapping. -/
theorem c3_cache_union_witness :
    (runMain ⟨["d0"], fun j => if j = "d0" then some ⟨some ['A'], none⟩ else none,
        fun _ => true, fun _ => ⟨none, none⟩, fun _ => none⟩).extracted "d0"
      = some ⟨some ['A'], none⟩ := by
  have h := (c3_cache_union
    ⟨["d0"], fun j => if j = "d0" then some ⟨some ['A'], none⟩ else none,
      fun _ => true, fun _ => ⟨none, none⟩, fun _ => none⟩).2.2 "d0" (by decide)
  exact h.trans (by decide)

end AiNews
